import Mathlib

/-!
Verification of the billing/ledger subsystem of the Agentic ChatBot generator
backend (`backend-flask/billing/`).

Credit amounts are Python `Decimal` values in the source; addition,
subtraction and comparison on `Decimal` are exact at the scales used here, so
they are embedded as exact rationals (`ℚ`).  The one place the source rounds
(`Decimal.quantize('0.0001', ROUND_UP)`) is modelled explicitly.  `Decimal`
division carries 28 significant digits; it is embedded as exact rational
division, which agrees with the source for all inputs whose quotient fits in
28 significant digits (all realistic token counts and rates do).
-/

/-- Smallest multiple of `1/10000` that is `≥ q` (for `q ≥ 0` this is
Python's `Decimal.quantize(Decimal('0.0001'), rounding=ROUND_UP)`). -/
def ceil4 (q : ℚ) : ℚ := (⌈q * 10000⌉ : ℚ) / 10000

/-- Default `tokens_per_credit` rate (`token_service.DEFAULT_TOKENS_PER_CREDIT`). -/
def DEFAULT_TOKENS_PER_CREDIT : ℤ := 1000

/-- Maximum tokens allowed per single run (`token_service.MAX_TOKENS_PER_RUN`). -/
def MAX_TOKENS_PER_RUN : ℤ := 4000

/-- Embeds `token_service.tokens_to_credits`: non-positive token counts give
`0.0000`; otherwise the quotient `tokens / tokens_per_credit` is rounded up to
4 decimal places.  The conversion rate (read from settings in the source) is
passed as the argument `tpc`. -/
def tokens_to_credits (tokens : ℤ) (tpc : ℤ) : ℚ :=
  if tokens ≤ 0 then 0 else ceil4 ((tokens : ℚ) / (tpc : ℚ))

/-- Python `int(d)` on a `Decimal`: truncation toward zero. -/
def truncQ (q : ℚ) : ℤ := if q < 0 then ⌈q⌉ else ⌊q⌋

/-- Embeds `token_service.credits_to_tokens`:
`int(credits * tokens_per_credit)`. -/
def credits_to_tokens (credits : ℚ) (tpc : ℤ) : ℤ := truncQ (credits * (tpc : ℚ))

/-- Embeds `token_service.estimate_max_tokens`: the pre-flight token estimate
`int(query_length * 0.25) + 100 + 200*k + 500`, capped at `MAX_TOKENS_PER_RUN`. -/
def estimate_max_tokens (query_length : ℤ) (k : ℤ) : ℤ :=
  min (truncQ ((query_length : ℚ) * (1 / 4)) + 100 + k * 200 + 500) MAX_TOKENS_PER_RUN

/-- Committed wallet state (SQL `Wallet` row / Mongo embedded `wallet`
document): balance and the purchase accumulator.  `updated_at` is dropped
(wall-clock metadata, not referenced by any claim). -/
structure WalletRow where
  credits_remaining : ℚ
  total_credits_purchased : ℚ
deriving Repr, DecidableEq

/-- Billing user row of the SQL backend: the 1:1 wallet (nullable, the code
defends against a user row without a wallet) and the suspension flag. -/
structure UserRow where
  wallet : Option WalletRow
  is_suspended : Bool
deriving Repr, DecidableEq

/-- Mongo `billing_users` document: the embedded wallet is always created
with the user, so its two decimal fields are inlined. -/
structure MongoUserDoc where
  creditsRemaining : ℚ
  totalCreditsPurchased : ℚ
  isSuspended : Bool
deriving Repr, DecidableEq

/-- State visible to the Mongo wallet service for one user: the
`billing_users` document, plus today's usage aggregate over `usage_logs`
and the `daily_credit_cap` setting (both read by the sufficiency
pre-check inside `deduct_credits`). -/
structure MongoBilling where
  user : Option MongoUserDoc
  dailyUsage : ℚ
  dailyCap : ℚ
deriving Repr, DecidableEq

/-- Embeds `WalletService.get_or_create_user` (SQL): an absent user row is
created together with a zero-balance wallet, unsuspended. -/
def WalletService.get_or_create_user (u : Option UserRow) : UserRow :=
  match u with
  | some user => user
  | none => { wallet := some ⟨0, 0⟩, is_suspended := false }

/-- Embeds `WalletService.get_balance` (SQL): zero if user or wallet absent. -/
def WalletService.get_balance (u : Option UserRow) : ℚ :=
  match u with
  | none => 0
  | some user =>
      match user.wallet with
      | none => 0
      | some w => w.credits_remaining

/-- Outcome messages of `WalletService.deduct_credits` (SQL), abstracting the
literal strings: `noDeduction` = "No deduction needed", `ok` = "OK",
`insufficient b r` = "Insufficient credits. Balance: b, Required: r". -/
inductive SqlDebitMsg
  | noDeduction
  | ok
  | insufficient (balance required : ℚ)
deriving Repr, DecidableEq

/-- Result of the SQL debit: post-state of the user row, success flag,
message. -/
structure SqlDebitOut where
  user : Option UserRow
  success : Bool
  msg : SqlDebitMsg
deriving Repr, DecidableEq

/-- Embeds `WalletService.deduct_credits` (SQL): `amount <= 0` is a no-op
success; a missing user row is auto-created (committing a zero wallet); a
missing wallet is created and the debit fails reporting balance 0; otherwise
the guarded conditional `UPDATE ... WHERE credits_remaining >= amount`
decrements on success and on a zero-row match fails reporting the current
balance.  The suspension flag is not consulted anywhere in this code path. -/
def WalletService.deduct_credits (u : Option UserRow) (amount : ℚ) : SqlDebitOut :=
  if amount ≤ 0 then ⟨u, true, .noDeduction⟩
  else
    let user := WalletService.get_or_create_user u
    match user.wallet with
    | none => ⟨some { user with wallet := some ⟨0, 0⟩ }, false, .insufficient 0 amount⟩
    | some w =>
        if amount ≤ w.credits_remaining then
          ⟨some { user with
              wallet := some { w with credits_remaining := w.credits_remaining - amount } },
            true, .ok⟩
        else
          ⟨some user, false, .insufficient w.credits_remaining amount⟩

/-- Embeds `WalletService.add_credits` (SQL): fails on `amount <= 0`;
otherwise get-or-create, then increment **both** `credits_remaining` and
`total_credits_purchased` by the amount — the SQL service has no `source`
parameter and cannot distinguish payment credits from grants. -/
def WalletService.add_credits (u : Option UserRow) (amount : ℚ) :
    Option UserRow × Bool × ℚ :=
  if amount ≤ 0 then (u, false, 0)
  else
    let user := WalletService.get_or_create_user u
    let w := user.wallet.getD ⟨0, 0⟩
    let w2 : WalletRow :=
      ⟨w.credits_remaining + amount, w.total_credits_purchased + amount⟩
    (some { user with wallet := some w2 }, true, w2.credits_remaining)

/-- Embeds `api_server.billing_admin_add_credits` (admin grant endpoint,
SQL path): it forwards directly to `WalletService.add_credits` with no
source tag. -/
def billing_admin_add_credits (u : Option UserRow) (credits : ℚ) :
    Option UserRow × Bool × ℚ :=
  WalletService.add_credits u credits

/-- Embeds `WalletService.get_wallet_info` (SQL): `none` when user or wallet
is absent, otherwise the (balance, total purchased) pair surfaced to the
API (daily-usage and plan metadata elided). -/
def WalletService.get_wallet_info (u : Option UserRow) : Option (ℚ × ℚ) :=
  match u with
  | none => none
  | some user =>
      match user.wallet with
      | none => none
      | some w => some (w.credits_remaining, w.total_credits_purchased)

/-- Failure messages of `WalletServiceMongo.has_sufficient_credits`. -/
inductive MongoCheckMsg
  | ok
  | noAccount
  | insufficient (balance required : ℚ)
  | dailyLimit (remainingToday : ℚ)
deriving Repr, DecidableEq

/-- Embeds `WalletServiceMongo.has_sufficient_credits`: missing account,
then balance check, then daily-cap check (`daily_usage + required >
daily_cap` rejects). -/
def WalletServiceMongo.has_sufficient_credits (s : MongoBilling) (required : ℚ) :
    Bool × MongoCheckMsg :=
  match s.user with
  | none => (false, .noAccount)
  | some u =>
      if u.creditsRemaining < required then
        (false, .insufficient u.creditsRemaining required)
      else if s.dailyCap < s.dailyUsage + required then
        (false, .dailyLimit (s.dailyCap - s.dailyUsage))
      else (true, .ok)

/-- Outcome messages of `WalletServiceMongo.deduct_credits`: `precheck m`
propagates the sufficiency-check failure message, `newBalance b` is the
success payload (`str(new_balance)`), `conflict` is "Insufficient credits or
concurrent deduction conflict". -/
inductive MongoDebitMsg
  | noDeduction
  | newBalance (b : ℚ)
  | precheck (m : MongoCheckMsg)
  | conflict
deriving Repr, DecidableEq

/-- Result of the Mongo debit. -/
structure MongoDebitOut where
  state : MongoBilling
  success : Bool
  msg : MongoDebitMsg
deriving Repr, DecidableEq

/-- Embeds `WalletServiceMongo.deduct_credits`: `amount <= 0` is a no-op
success; then `has_sufficient_credits` (balance **and** daily cap) gates the
operation; then the guarded `find_one_and_update` with
`creditsRemaining >= amount` decrements atomically.  The suspension flag is
not consulted. -/
def WalletServiceMongo.deduct_credits (s : MongoBilling) (amount : ℚ) : MongoDebitOut :=
  if amount ≤ 0 then ⟨s, true, .noDeduction⟩
  else
    match WalletServiceMongo.has_sufficient_credits s amount with
    | (false, reason) => ⟨s, false, .precheck reason⟩
    | (true, _) =>
        match s.user with
        | some u =>
            if amount ≤ u.creditsRemaining then
              let u2 := { u with creditsRemaining := u.creditsRemaining - amount }
              ⟨{ s with user := some u2 }, true, .newBalance u2.creditsRemaining⟩
            else ⟨s, false, .conflict⟩
        | none => ⟨s, false, .conflict⟩

/-- Embeds `WalletServiceMongo.get_or_create_user`: creates the document
with a zero wallet and `isSuspended = False` when absent. -/
def WalletServiceMongo.get_or_create_user (s : MongoBilling) : MongoBilling :=
  match s.user with
  | some _ => s
  | none => { s with user := some ⟨0, 0, false⟩ }

/-- Embeds `WalletServiceMongo.add_credits`: fails on `amount <= 0`;
otherwise get-or-create, then `$inc` of `creditsRemaining` by the amount and
of `totalCreditsPurchased` by the amount **only when** `source == "payment"`
(else by zero). -/
def WalletServiceMongo.add_credits (s : MongoBilling) (amount : ℚ) (source : String) :
    MongoBilling × Bool × ℚ :=
  if amount ≤ 0 then (s, false, 0)
  else
    let s1 := WalletServiceMongo.get_or_create_user s
    match s1.user with
    | some u =>
        let u2 : MongoUserDoc :=
          { u with
            creditsRemaining := u.creditsRemaining + amount,
            totalCreditsPurchased :=
              u.totalCreditsPurchased + (if source = "payment" then amount else 0) }
        ({ s1 with user := some u2 }, true, u2.creditsRemaining)
    | none => (s1, false, 0)

/-- Embeds `WalletServiceMongo.get_balance`: zero if the document is absent. -/
def WalletServiceMongo.get_balance (s : MongoBilling) : ℚ :=
  match s.user with
  | none => 0
  | some u => u.creditsRemaining

/-- Embeds `WalletServiceMongo.get_wallet_info`: `none` when the document is
absent, else the (balance, total purchased) pair. -/
def WalletServiceMongo.get_wallet_info (s : MongoBilling) : Option (ℚ × ℚ) :=
  match s.user with
  | none => none
  | some u => some (u.creditsRemaining, u.totalCreditsPurchased)

/-- Helper: the `total_credits_purchased` accumulator visible in the SQL
backend state. -/
def sqlPurchased (u : Option UserRow) : ℚ :=
  match u with
  | none => 0
  | some user =>
      match user.wallet with
      | none => 0
      | some w => w.total_credits_purchased

/-- Helper: the `totalCreditsPurchased` accumulator visible in the Mongo
backend state. -/
def mongoPurchased (s : MongoBilling) : ℚ :=
  match s.user with
  | none => 0
  | some u => u.totalCreditsPurchased

/-- Payment lifecycle status (`status` column/field: pending, completed,
failed). -/
inductive PayStatus
  | pending
  | completed
  | failed
deriving Repr, DecidableEq

/-- SQL `Payment` row fields referenced by the claims (`order_id`,
`amount_inr`, `plan_id`, timestamps and the idempotency key are elided:
the row is already located by `order_id` when `complete_payment` runs). -/
structure PaymentRow where
  razorpay_payment_id : Option String
  razorpay_signature : Option String
  credits_added : ℚ
  status : PayStatus
  error_message : Option String
deriving Repr, DecidableEq

/-- State visible to `PaymentService.complete_payment` (SQL): the payment row
matching the requested `order_id` (`none` = no match) and the linked user row
(`none` = the `User.id == payment.user_id` lookup fails). -/
structure SqlPayState where
  payment : Option PaymentRow
  user : Option UserRow
deriving Repr, DecidableEq

/-- Outcomes of the SQL `complete_payment`, abstracting the result dicts. -/
inductive SqlPayMsg
  | invalidSignature
  | notFound
  | alreadyProcessed (credits_added : ℚ)
  | userNotFound
  | failedToAddCredits
  | paymentSuccessful (credits_added newBalance : ℚ)
deriving Repr, DecidableEq

/-- Result of the SQL `complete_payment`. -/
structure SqlPayOut where
  state : SqlPayState
  success : Bool
  msg : SqlPayMsg
deriving Repr, DecidableEq

/-- Embeds `PaymentService.complete_payment` (SQL).  `verify_signature` is an
HMAC-SHA256 over `"order_id|payment_id"` with the gateway secret compared in
constant time; being a pure function of data outside the embedding, its
outcome for this call is passed as the oracle argument `sigValid`.  The body
mirrors the source: reject on bad signature before touching any state; a
payment already `completed` is an idempotent no-op success; otherwise mark
completed, look up the user (marking the payment `failed` when absent),
credit the wallet, and on credit failure mark the payment `failed` — not
`pending`. -/
def PaymentService.complete_payment (sigValid : Bool) (s : SqlPayState)
    (payment_id signature : String) : SqlPayOut :=
  if ¬ sigValid then ⟨s, false, .invalidSignature⟩
  else
    match s.payment with
    | none => ⟨s, false, .notFound⟩
    | some p =>
        if p.status = .completed then ⟨s, true, .alreadyProcessed p.credits_added⟩
        else
          let p2 : PaymentRow :=
            { p with razorpay_payment_id := some payment_id,
                     razorpay_signature := some signature,
                     status := .completed }
          match s.user with
          | none =>
              ⟨⟨some { p2 with
                      status := .failed,
                      error_message := some "User not found" }, s.user⟩,
                false, .userNotFound⟩
          | some user =>
              match WalletService.add_credits (some user) p.credits_added with
              | (u2, true, newBal) =>
                  ⟨⟨some p2, u2⟩, true, .paymentSuccessful p.credits_added newBal⟩
              | (u2, false, _) =>
                  ⟨⟨some { p2 with
                          status := .failed,
                          error_message := some "Failed to add credits" }, u2⟩,
                    false, .failedToAddCredits⟩

/-- Mongo `payments` document fields referenced by the claims;
`completedAtSet` models whether `completedAt` holds a timestamp (set on
completion, cleared by the rollback). -/
structure MongoPaymentDoc where
  razorpayPaymentId : Option String
  razorpaySignature : Option String
  creditsToAdd : ℚ
  status : PayStatus
  completedAtSet : Bool
deriving Repr, DecidableEq

/-- State visible to `PaymentServiceMongo.complete_payment`: the payment
document matching the requested order id, and the billing state the wallet
credit runs against. -/
structure MongoPayState where
  payment : Option MongoPaymentDoc
  billing : MongoBilling
deriving Repr, DecidableEq

/-- Outcomes of the Mongo `complete_payment`. `alreadyOrMissing` is the
zero-match branch of the status-guarded conditional update. -/
inductive MongoPayMsg
  | notFound
  | alreadyProcessed
  | previouslyFailed
  | alreadyOrMissing
  | failedToAddCredits
  | paymentSuccessful (credits : ℚ)
deriving Repr, DecidableEq

/-- Result of the Mongo `complete_payment`. -/
structure MongoPayOut where
  state : MongoPayState
  success : Bool
  msg : MongoPayMsg
deriving Repr, DecidableEq

/-- Embeds `PaymentServiceMongo.complete_payment`.  The source never calls
`verify_signature` here ("For now, we trust the signature if provided"), so
no signature-validity oracle appears: the `signature` argument is only
stored.  A `completed` payment is an idempotent no-op success; `failed` is
rejected; a `pending` payment is completed via the status-guarded update,
then the wallet is credited with `source="payment"`; a credit failure rolls
`status` back to `pending` and clears `completedAt` (keeping the stored
payment id and signature, as the source's rollback `$set` does). -/
def PaymentServiceMongo.complete_payment (s : MongoPayState)
    (payment_id signature : String) : MongoPayOut :=
  match s.payment with
  | none => ⟨s, false, .notFound⟩
  | some p =>
      if p.status = .completed then ⟨s, true, .alreadyProcessed⟩
      else if p.status = .failed then ⟨s, false, .previouslyFailed⟩
      else
        if p.status = .pending then
          let p2 : MongoPaymentDoc :=
            { p with razorpayPaymentId := some payment_id,
                     razorpaySignature := some signature,
                     status := .completed,
                     completedAtSet := true }
          match WalletServiceMongo.add_credits s.billing p.creditsToAdd "payment" with
          | (b2, true, _) => ⟨⟨some p2, b2⟩, true, .paymentSuccessful p.creditsToAdd⟩
          | (b2, false, _) =>
              ⟨⟨some { p2 with status := .pending, completedAtSet := false }, b2⟩,
                false, .failedToAddCredits⟩
        else ⟨s, false, .alreadyOrMissing⟩

/-- Helper: the suspension flag carried through by the Mongo credit path. -/
def mongoSuspFlag (s : MongoBilling) : Bool :=
  match s.user with
  | none => false
  | some u => u.isSuspended

/-- Usage log record fields referenced by the claims (`user_id`, `agent`
identifiers, `session_id`, `query_text` and `created_at` elided). -/
structure UsageLogEntry where
  input_tokens : ℤ
  output_tokens : ℤ
  total_tokens : ℤ
  credits_used : ℚ
deriving Repr, DecidableEq

/-- Embeds `UsageService.log_usage` (SQL): `total_tokens = input + output`
and `credits_used = tokens_to_credits(total_tokens)` with the rate in effect
at call time (passed as `tpc`).  The user lookup and the session/query
metadata are elided. -/
def UsageService.log_usage (input_tokens output_tokens : ℤ) (tpc : ℤ) : UsageLogEntry :=
  { input_tokens := input_tokens, output_tokens := output_tokens,
    total_tokens := input_tokens + output_tokens,
    credits_used := tokens_to_credits (input_tokens + output_tokens) tpc }

/-- Embeds `UsageServiceMongo.log_usage`: `credits_used =
Decimal(str(total_tokens)) / Decimal(str(tokens_per_credit))` — the raw
quotient, with no 4-decimal round-up (`Decimal` division modelled as exact
rational division). -/
def UsageServiceMongo.log_usage (input_tokens output_tokens : ℤ) (tpc : ℤ) :
    UsageLogEntry :=
  { input_tokens := input_tokens, output_tokens := output_tokens,
    total_tokens := input_tokens + output_tokens,
    credits_used := ((input_tokens + output_tokens : ℤ) : ℚ) / (tpc : ℚ) }

/-- The hard-coded `AGENT_LIMITS['max_llm_calls']` ceiling read directly by
`check_limits`. -/
def MAX_LLM_CALLS : ℤ := 5

/-- The specific limit breached, carried by the `ExecutionAborted` signal
(abstracting the formatted reason strings of `guardrails.py`). -/
inductive AbortReason
  | timeout
  | tokenLimit
  | insufficientCredits
  | stepLimit
  | llmCallLimit
deriving Repr, DecidableEq

/-- Embeds the `AgentController` instance state (`guardrails.py`): the
configured ceilings (`max_tokens`, `max_steps`, `timeout_seconds`,
`credits_available`) plus the conversion rate its credit check uses, and the
mutable tracking fields.  Wall-clock instants are rationals supplied by the
caller. -/
structure AgentController where
  max_tokens : ℤ
  max_steps : ℤ
  timeout_seconds : ℚ
  credits_available : Option ℚ
  tpc : ℤ
  tokens_used : ℤ
  steps_taken : ℤ
  llm_calls : ℤ
  start_time : Option ℚ
  aborted : Bool
  abort_reason : Option AbortReason
deriving Repr, DecidableEq

/-- Result of a guardrail call: the post-state and, when `ExecutionAborted`
was raised, the reason payload it carries (`none` inside means the exception
carried a `None` reason, which only an externally corrupted state could
produce). -/
structure GuardOut where
  ctrl : AgentController
  thrown : Option (Option AbortReason)
deriving Repr, DecidableEq

/-- Embeds `AgentController.abort`: set the flag, record the reason, raise. -/
def AgentController.abort (c : AgentController) (r : AbortReason) : GuardOut :=
  ⟨{ c with aborted := true, abort_reason := some r }, some (some r)⟩

/-- Embeds `AgentController.check_limits`: an already-aborted controller
re-raises with the original reason before any other check; otherwise the
timeout, projected-token, credit, step and LLM-call ceilings are checked in
order, the first breach aborting.  `now` is the current wall-clock instant
(`time.time()`); the Python truthiness test `if self.start_time:` is
modelled as presence of `start_time` (real clock values are never 0). -/
def AgentController.check_limits (c : AgentController) (now : ℚ)
    (additional_tokens : ℤ) : GuardOut :=
  if c.aborted then ⟨c, some c.abort_reason⟩
  else if (match c.start_time with
           | some t0 => decide (c.timeout_seconds < now - t0)
           | none => false) then
    AgentController.abort c .timeout
  else if c.max_tokens < c.tokens_used + additional_tokens then
    AgentController.abort c .tokenLimit
  else if (match c.credits_available with
           | some ca =>
               decide (ca < tokens_to_credits (c.tokens_used + additional_tokens) c.tpc)
           | none => false) then
    AgentController.abort c .insufficientCredits
  else if c.max_steps < c.steps_taken then
    AgentController.abort c .stepLimit
  else if MAX_LLM_CALLS < c.llm_calls then
    AgentController.abort c .llmCallLimit
  else ⟨c, none⟩

/-- Embeds `AgentController.record_tokens`: accumulate, then re-check. -/
def AgentController.record_tokens (c : AgentController) (now : ℚ) (tokens : ℤ) :
    GuardOut :=
  AgentController.check_limits { c with tokens_used := c.tokens_used + tokens } now 0

/-- Embeds `AgentController.record_step`: count the step, then re-check. -/
def AgentController.record_step (c : AgentController) (now : ℚ) : GuardOut :=
  AgentController.check_limits { c with steps_taken := c.steps_taken + 1 } now 0

/-- Embeds `AgentController.record_llm_call`: count the call, accumulate
positive token usage, then re-check. -/
def AgentController.record_llm_call (c : AgentController) (now : ℚ) (tokens : ℤ) :
    GuardOut :=
  let c1 := { c with llm_calls := c.llm_calls + 1 }
  let c2 := if 0 < tokens then { c1 with tokens_used := c1.tokens_used + tokens } else c1
  AgentController.check_limits c2 now 0

/-- Embeds `AgentController.start`: reset all tracking state and stamp the
start time. -/
def AgentController.start (c : AgentController) (now : ℚ) : AgentController :=
  { c with start_time := some now, tokens_used := 0, steps_taken := 0,
           llm_calls := 0, aborted := false, abort_reason := none }

lemma ceil4_ge (q : ℚ) : q ≤ ceil4 q := by
  unfold ceil4
  rw [le_div_iff₀ (by norm_num : (0:ℚ) < 10000)]
  exact Int.le_ceil (q * 10000)

lemma tokens_to_credits_pos_eq (t tpc : ℤ) (ht : 0 < t) :
    tokens_to_credits t tpc = ceil4 ((t : ℚ) / (tpc : ℚ)) := by
  unfold tokens_to_credits
  rw [if_neg (by omega)]

lemma sql_add_credits_pos (u : Option UserRow) (amount : ℚ) (h : 0 < amount) :
    WalletService.add_credits u amount =
      (some ⟨some ⟨WalletService.get_balance u + amount, sqlPurchased u + amount⟩,
          (WalletService.get_or_create_user u).is_suspended⟩,
        true, WalletService.get_balance u + amount) := by
  unfold WalletService.add_credits WalletService.get_or_create_user
    WalletService.get_balance sqlPurchased
  rw [if_neg (not_le.mpr h)]
  rcases u with _ | user
  · rfl
  · rcases user with ⟨w, b⟩
    rcases w with _ | w
    · rfl
    · rfl

lemma mongo_add_credits_pos (s : MongoBilling) (amount : ℚ) (src : String)
    (h : 0 < amount) :
    WalletServiceMongo.add_credits s amount src =
      (⟨some ⟨WalletServiceMongo.get_balance s + amount,
          mongoPurchased s + (if src = "payment" then amount else 0),
          mongoSuspFlag s⟩, s.dailyUsage, s.dailyCap⟩,
        true, WalletServiceMongo.get_balance s + amount) := by
  unfold WalletServiceMongo.add_credits WalletServiceMongo.get_or_create_user
    WalletServiceMongo.get_balance mongoPurchased mongoSuspFlag
  rw [if_neg (not_le.mpr h)]
  rcases s with ⟨su, du, dc⟩
  rcases su with _ | u
  · rfl
  · rfl

lemma mongo_add_credits_nonpos (s : MongoBilling) (amount : ℚ) (src : String)
    (h : amount ≤ 0) :
    WalletServiceMongo.add_credits s amount src = (s, false, 0) := by
  unfold WalletServiceMongo.add_credits
  rw [if_pos h]

lemma sql_add_credits_nonpos (u : Option UserRow) (amount : ℚ) (h : amount ≤ 0) :
    WalletService.add_credits u amount = (u, false, 0) := by
  unfold WalletService.add_credits
  rw [if_pos h]

lemma mongo_complete_pending_pos (p : MongoPaymentDoc) (b : MongoBilling)
    (pid sig : String) (hp : p.status = .pending) (hc : 0 < p.creditsToAdd) :
    PaymentServiceMongo.complete_payment ⟨some p, b⟩ pid sig =
      ⟨⟨some ⟨some pid, some sig, p.creditsToAdd, .completed, true⟩,
         ⟨some ⟨WalletServiceMongo.get_balance b + p.creditsToAdd,
             mongoPurchased b + p.creditsToAdd, mongoSuspFlag b⟩,
           b.dailyUsage, b.dailyCap⟩⟩,
        true, .paymentSuccessful p.creditsToAdd⟩ := by
  have hncomp : ¬ p.status = PayStatus.completed := by
    rw [hp]
    exact fun h => PayStatus.noConfusion h
  have hnfail : ¬ p.status = PayStatus.failed := by
    rw [hp]
    exact fun h => PayStatus.noConfusion h
  unfold PaymentServiceMongo.complete_payment
  simp only []
  rw [if_neg hncomp, if_neg hnfail, if_pos hp,
    mongo_add_credits_pos b p.creditsToAdd "payment" hc, if_pos rfl]

lemma sql_complete_credit_fail (p : PaymentRow) (user : UserRow)
    (pid sig : String) (hp : ¬ p.status = .completed) (hc : p.credits_added ≤ 0) :
    PaymentService.complete_payment true ⟨some p, some user⟩ pid sig =
      ⟨⟨some ⟨some pid, some sig, p.credits_added, .failed,
          some "Failed to add credits"⟩, some user⟩,
        false, .failedToAddCredits⟩ := by
  unfold PaymentService.complete_payment
  rw [if_neg (by simp)]
  simp only []
  rw [if_neg hp, sql_add_credits_nonpos _ _ hc]

/-- Claim C1 counterexample: in the Mongo backend a debit can fail even
though the committed balance covers the amount — `deduct_credits` first runs
`has_sufficient_credits`, whose daily-cap branch rejects when
`daily_usage + amount > daily_cap`.  Balance 100, amount 10, daily usage 95,
cap 100: the debit fails and reports the daily limit, refuting "if the
amount is positive and the committed balance is >= the amount, the debit
succeeds". -/
theorem claim_C1_counterexample :
    WalletServiceMongo.deduct_credits
        ⟨some ⟨100, 0, false⟩, 95, 100⟩ 10 =
      ⟨⟨some ⟨100, 0, false⟩, 95, 100⟩, false, .precheck (.dailyLimit 5)⟩ ∧
    (10 : ℚ) ≤ 100 := by
  constructor
  · unfold WalletServiceMongo.deduct_credits WalletServiceMongo.has_sufficient_credits
    norm_num
  · norm_num

/-- Claim C1 (amended): both debit implementations are no-op successes for
`amount <= 0`, fail without mutating when the balance is short (reporting the
current balance), and preserve `credits_remaining >= 0`.  The SQL backend
succeeds exactly when the committed balance covers a positive amount; the
Mongo backend additionally requires the daily-cap pre-check
(`daily_usage + amount <= daily_cap`) to pass, so a covered debit can still
fail there — and a missing Mongo account fails with a no-account message
rather than a balance report. -/
theorem claim_C1 :
    (∀ (u : Option UserRow) (a : ℚ), a ≤ 0 →
      WalletService.deduct_credits u a = ⟨u, true, .noDeduction⟩) ∧
    (∀ (w : WalletRow) (b : Bool) (a : ℚ), 0 < a → a ≤ w.credits_remaining →
      WalletService.deduct_credits (some ⟨some w, b⟩) a =
        ⟨some ⟨some ⟨w.credits_remaining - a, w.total_credits_purchased⟩, b⟩,
          true, .ok⟩) ∧
    (∀ (w : WalletRow) (b : Bool) (a : ℚ), 0 < a → w.credits_remaining < a →
      WalletService.deduct_credits (some ⟨some w, b⟩) a =
        ⟨some ⟨some w, b⟩, false, .insufficient w.credits_remaining a⟩) ∧
    (∀ (u : Option UserRow) (a : ℚ), 0 ≤ WalletService.get_balance u →
      0 ≤ WalletService.get_balance (WalletService.deduct_credits u a).user) ∧
    (∀ (s : MongoBilling) (a : ℚ), a ≤ 0 →
      WalletServiceMongo.deduct_credits s a = ⟨s, true, .noDeduction⟩) ∧
    (∀ (s : MongoBilling) (u : MongoUserDoc) (a : ℚ), s.user = some u →
      a ≤ u.creditsRemaining → s.dailyUsage + a ≤ s.dailyCap →
      WalletServiceMongo.deduct_credits s a =
        if a ≤ 0 then ⟨s, true, .noDeduction⟩
        else ⟨{ s with user := some { u with
                  creditsRemaining := u.creditsRemaining - a } },
            true, .newBalance (u.creditsRemaining - a)⟩) ∧
    (∀ (s : MongoBilling) (u : MongoUserDoc) (a : ℚ), s.user = some u →
      0 < a → u.creditsRemaining < a →
      WalletServiceMongo.deduct_credits s a =
        ⟨s, false, .precheck (.insufficient u.creditsRemaining a)⟩) ∧
    (∀ (s : MongoBilling) (a : ℚ), 0 < a → s.dailyCap < s.dailyUsage + a →
      (WalletServiceMongo.deduct_credits s a).success = false ∧
      (WalletServiceMongo.deduct_credits s a).state = s) ∧
    (∀ (s : MongoBilling) (a : ℚ), 0 ≤ WalletServiceMongo.get_balance s →
      0 ≤ WalletServiceMongo.get_balance
            (WalletServiceMongo.deduct_credits s a).state) := by
  refine ⟨?_, ?_, ?_, ?_, ?_, ?_, ?_, ?_, ?_⟩
  · intro u a ha
    unfold WalletService.deduct_credits
    rw [if_pos ha]
  · intro w b a ha hle
    unfold WalletService.deduct_credits WalletService.get_or_create_user
    rw [if_neg (not_le.mpr ha)]
    simp only []
    rw [if_pos hle]
  · intro w b a ha hlt
    unfold WalletService.deduct_credits WalletService.get_or_create_user
    rw [if_neg (not_le.mpr ha)]
    simp only []
    rw [if_neg (not_le.mpr hlt)]
  · intro u a h0
    unfold WalletService.deduct_credits
    by_cases ha : a ≤ 0
    · rw [if_pos ha]
      exact h0
    · rw [if_neg ha]
      rcases u with _ | user
      · simp [WalletService.get_or_create_user, WalletService.get_balance, ha]
      · rcases user with ⟨w, b⟩
        rcases w with _ | w
        · simp [WalletService.get_or_create_user, WalletService.get_balance, ha]
        · simp only [WalletService.get_or_create_user]
          by_cases hle : a ≤ w.credits_remaining
          · rw [if_pos hle]
            simp only [WalletService.get_balance]
            linarith
          · rw [if_neg hle]
            simpa [WalletService.get_balance] using
              (by simpa [WalletService.get_balance] using h0 : 0 ≤ w.credits_remaining)
  · intro s a ha
    unfold WalletServiceMongo.deduct_credits
    rw [if_pos ha]
  · intro s u a hu hle hcap
    by_cases ha : a ≤ 0
    · rw [if_pos ha]
      unfold WalletServiceMongo.deduct_credits
      rw [if_pos ha]
    · rw [if_neg ha]
      rcases s with ⟨su, du, dc⟩
      have hsu : su = some u := hu
      subst hsu
      unfold WalletServiceMongo.deduct_credits WalletServiceMongo.has_sufficient_credits
      rw [if_neg ha]
      simp only []
      rw [if_neg (not_lt.mpr hle), if_neg (not_lt.mpr hcap)]
      simp only []
      rw [if_pos hle]
  · intro s u a hu ha hlt
    rcases s with ⟨su, du, dc⟩
    have hsu : su = some u := hu
    subst hsu
    unfold WalletServiceMongo.deduct_credits WalletServiceMongo.has_sufficient_credits
    rw [if_neg (not_le.mpr ha)]
    simp only []
    rw [if_pos hlt]
  · intro s a ha hcap
    rcases s with ⟨su, du, dc⟩
    unfold WalletServiceMongo.deduct_credits WalletServiceMongo.has_sufficient_credits
    rw [if_neg (not_le.mpr ha)]
    rcases su with _ | u
    · exact ⟨rfl, rfl⟩
    · simp only []
      by_cases hb : u.creditsRemaining < a
      · rw [if_pos hb]
        exact ⟨rfl, rfl⟩
      · rw [if_neg hb, if_pos hcap]
        exact ⟨rfl, rfl⟩
  · intro s a h0
    unfold WalletServiceMongo.deduct_credits
    by_cases ha : a ≤ 0
    · rw [if_pos ha]
      exact h0
    · rw [if_neg ha]
      rcases s with ⟨su, du, dc⟩
      rcases su with _ | u
      · simpa [WalletServiceMongo.has_sufficient_credits] using h0
      · unfold WalletServiceMongo.has_sufficient_credits
        simp only []
        by_cases hb : u.creditsRemaining < a
        · rw [if_pos hb]
          simpa [WalletServiceMongo.get_balance] using h0
        · rw [if_neg hb]
          by_cases hcap : dc < du + a
          · rw [if_pos hcap]
            simpa [WalletServiceMongo.get_balance] using h0
          · rw [if_neg hcap]
            simp only []
            rw [if_pos (not_lt.mp hb)]
            simp only [WalletServiceMongo.get_balance]
            linarith [not_lt.mp hb]

theorem claim_C1_witness :
    WalletService.deduct_credits (some ⟨some ⟨10, 3⟩, false⟩) 4 =
      ⟨some ⟨some ⟨6, 3⟩, false⟩, true, .ok⟩ ∧
    WalletServiceMongo.deduct_credits ⟨some ⟨10, 3, false⟩, 0, 100⟩ 4 =
      ⟨⟨some ⟨6, 3, false⟩, 0, 100⟩, true, .newBalance 6⟩ := by
  constructor
  · have h := claim_C1.2.1 ⟨10, 3⟩ false 4 (by norm_num) (by norm_num)
    norm_num at h
    exact h
  · have h := claim_C1.2.2.2.2.2.1 ⟨some ⟨10, 3, false⟩, 0, 100⟩ ⟨10, 3, false⟩ 4
      rfl (by norm_num) (by norm_num)
    rw [if_neg (by norm_num : ¬ (4:ℚ) ≤ 0)] at h
    norm_num at h
    exact h

/-- Claim C2: for positive `t` and positive rate `r`, `tokens_to_credits t r`
is a multiple of `0.0001`, is at least the exact quotient `t / r` (the
conversion never under-charges), and is the smallest multiple of `0.0001`
that is `≥ t / r`. -/
theorem claim_C2 (t r : ℤ) (ht : 0 < t) (hr : 0 < r) :
    (∃ k : ℤ, tokens_to_credits t r = (k : ℚ) / 10000) ∧
    (t : ℚ) / (r : ℚ) ≤ tokens_to_credits t r ∧
    ∀ m : ℤ, (t : ℚ) / (r : ℚ) ≤ (m : ℚ) / 10000 →
      tokens_to_credits t r ≤ (m : ℚ) / 10000 := by
  rw [tokens_to_credits_pos_eq t r ht]
  refine ⟨⟨⌈(t : ℚ) / (r : ℚ) * 10000⌉, rfl⟩, ceil4_ge _, ?_⟩
  intro m hm
  unfold ceil4
  have h10 : (0 : ℚ) < 10000 := by norm_num
  have h1 : (t : ℚ) / (r : ℚ) * 10000 ≤ (m : ℚ) := (le_div_iff₀ h10).mp hm
  have h2 : (⌈(t : ℚ) / (r : ℚ) * 10000⌉ : ℚ) ≤ (m : ℚ) := by
    exact_mod_cast Int.ceil_le.mpr h1
  rw [div_le_div_iff₀ h10 h10]
  exact mul_le_mul_of_nonneg_right h2 (by norm_num)

theorem claim_C2_witness :
    (0 : ℤ) < 3 ∧ (0 : ℤ) < 7 ∧ (3 : ℚ) / (7 : ℚ) ≤ tokens_to_credits 3 7 :=
  ⟨by decide, by decide, (claim_C2 3 7 (by decide) (by decide)).2.1⟩

/-- Claim C3: completing a pending payment succeeds and credits the wallet by
`credits_to_add`; calling `complete_payment` again on the resulting state
(same order, payment id and signature) returns success with the
already-processed message and the exact same state — no second credit and no
payment mutation — in both backends. -/
theorem claim_C3 :
    (∀ (p : PaymentRow) (user : UserRow) (pid sig : String),
      p.status = .pending → 0 < p.credits_added →
      (PaymentService.complete_payment true ⟨some p, some user⟩ pid sig).success = true ∧
      WalletService.get_balance
          (PaymentService.complete_payment true ⟨some p, some user⟩ pid sig).state.user =
        WalletService.get_balance (some user) + p.credits_added ∧
      PaymentService.complete_payment true
          (PaymentService.complete_payment true ⟨some p, some user⟩ pid sig).state pid sig =
        ⟨(PaymentService.complete_payment true ⟨some p, some user⟩ pid sig).state, true,
          .alreadyProcessed p.credits_added⟩) ∧
    (∀ (p : MongoPaymentDoc) (b : MongoBilling) (pid sig : String),
      p.status = .pending → 0 < p.creditsToAdd →
      (PaymentServiceMongo.complete_payment ⟨some p, b⟩ pid sig).success = true ∧
      WalletServiceMongo.get_balance
          (PaymentServiceMongo.complete_payment ⟨some p, b⟩ pid sig).state.billing =
        WalletServiceMongo.get_balance b + p.creditsToAdd ∧
      PaymentServiceMongo.complete_payment
          (PaymentServiceMongo.complete_payment ⟨some p, b⟩ pid sig).state pid sig =
        ⟨(PaymentServiceMongo.complete_payment ⟨some p, b⟩ pid sig).state, true,
          .alreadyProcessed⟩) := by
  constructor
  · intro p user pid sig hp hc
    have hncomp : ¬ p.status = PayStatus.completed := by
      rw [hp]
      exact fun h => PayStatus.noConfusion h
    have hr1 : PaymentService.complete_payment true ⟨some p, some user⟩ pid sig =
        ⟨⟨some { p with
              razorpay_payment_id := some pid,
              razorpay_signature := some sig,
              status := .completed },
           some ⟨some ⟨WalletService.get_balance (some user) + p.credits_added,
               sqlPurchased (some user) + p.credits_added⟩, user.is_suspended⟩⟩,
          true, .paymentSuccessful p.credits_added
            (WalletService.get_balance (some user) + p.credits_added)⟩ := by
      unfold PaymentService.complete_payment
      rw [if_neg (by simp)]
      simp only []
      rw [if_neg hncomp, sql_add_credits_pos (some user) p.credits_added hc]
      rfl
    rw [hr1]
    refine ⟨rfl, rfl, ?_⟩
    unfold PaymentService.complete_payment
    rw [if_neg (by simp)]
    rfl
  · intro p b pid sig hp hc
    have hncomp : ¬ p.status = PayStatus.completed := by
      rw [hp]
      exact fun h => PayStatus.noConfusion h
    have hnfail : ¬ p.status = PayStatus.failed := by
      rw [hp]
      exact fun h => PayStatus.noConfusion h
    have hr1 : PaymentServiceMongo.complete_payment ⟨some p, b⟩ pid sig =
        ⟨⟨some { p with
              razorpayPaymentId := some pid,
              razorpaySignature := some sig,
              status := .completed,
              completedAtSet := true },
           ⟨some ⟨WalletServiceMongo.get_balance b + p.creditsToAdd,
               mongoPurchased b + p.creditsToAdd, mongoSuspFlag b⟩,
             b.dailyUsage, b.dailyCap⟩⟩,
          true, .paymentSuccessful p.creditsToAdd⟩ := by
      unfold PaymentServiceMongo.complete_payment
      simp only []
      rw [if_neg hncomp, if_neg hnfail, if_pos hp,
        mongo_add_credits_pos b p.creditsToAdd "payment" hc, if_pos rfl]
    rw [hr1]
    refine ⟨rfl, rfl, ?_⟩
    unfold PaymentServiceMongo.complete_payment
    rfl

theorem claim_C3_witness :
    (PaymentService.complete_payment true
        ⟨some ⟨none, none, 8, .pending, none⟩, some ⟨some ⟨2, 0⟩, false⟩⟩
        "pay_1" "sig_1").success = true ∧
    WalletService.get_balance
        (PaymentService.complete_payment true
          ⟨some ⟨none, none, 8, .pending, none⟩, some ⟨some ⟨2, 0⟩, false⟩⟩
          "pay_1" "sig_1").state.user =
      WalletService.get_balance (some ⟨some ⟨2, 0⟩, false⟩) + 8 ∧
    (PaymentServiceMongo.complete_payment
        ⟨some ⟨none, none, 8, .pending, false⟩, ⟨some ⟨2, 0, false⟩, 0, 100⟩⟩
        "pay_1" "sig_1").success = true :=
  ⟨((claim_C3.1 ⟨none, none, 8, .pending, none⟩ ⟨some ⟨2, 0⟩, false⟩ "pay_1" "sig_1"
      rfl (by norm_num))).1,
   ((claim_C3.1 ⟨none, none, 8, .pending, none⟩ ⟨some ⟨2, 0⟩, false⟩ "pay_1" "sig_1"
      rfl (by norm_num))).2.1,
   ((claim_C3.2 ⟨none, none, 8, .pending, false⟩ ⟨some ⟨2, 0, false⟩, 0, 100⟩
      "pay_1" "sig_1" rfl (by norm_num))).1⟩

/-- Claim C4 counterexample: the Mongo `complete_payment` performs no
signature verification (the source comments "For now, we trust the signature
if provided" and never calls `verify_signature`), so a call with an
arbitrary — in particular an invalid — signature still completes a pending
payment and credits the wallet, instead of returning failure with no state
change. -/
theorem claim_C4_counterexample :
    PaymentServiceMongo.complete_payment
        ⟨some ⟨none, none, 5, .pending, false⟩, ⟨some ⟨0, 0, false⟩, 0, 100⟩⟩
        "pay_1" "bogus-signature" =
      ⟨⟨some ⟨some "pay_1", some "bogus-signature", 5, .completed, true⟩,
         ⟨some ⟨5, 5, false⟩, 0, 100⟩⟩, true, .paymentSuccessful 5⟩ := by
  rw [mongo_complete_pending_pos ⟨none, none, 5, .pending, false⟩
    ⟨some ⟨0, 0, false⟩, 0, 100⟩ "pay_1" "bogus-signature" rfl (by norm_num)]
  unfold WalletServiceMongo.get_balance mongoPurchased mongoSuspFlag
  norm_num

/-- Claim C4 (amended): the SQL backend verifies the HMAC signature before
mutating any state — when verification fails, `complete_payment` returns
failure and the state (payment row and wallet) is exactly unchanged.  The
Mongo backend performs no verification at all: its success flag and
resulting billing state are independent of the signature argument, and a
pending payment is completed and credited whatever the signature is. -/
theorem claim_C4 :
    (∀ (s : SqlPayState) (pid sig : String),
      PaymentService.complete_payment false s pid sig = ⟨s, false, .invalidSignature⟩) ∧
    (∀ (s : MongoPayState) (pid sig1 sig2 : String),
      (PaymentServiceMongo.complete_payment s pid sig1).success =
        (PaymentServiceMongo.complete_payment s pid sig2).success ∧
      (PaymentServiceMongo.complete_payment s pid sig1).state.billing =
        (PaymentServiceMongo.complete_payment s pid sig2).state.billing) ∧
    (∀ (p : MongoPaymentDoc) (b : MongoBilling) (pid sig : String),
      p.status = .pending → 0 < p.creditsToAdd →
      (PaymentServiceMongo.complete_payment ⟨some p, b⟩ pid sig).success = true ∧
      WalletServiceMongo.get_balance
          (PaymentServiceMongo.complete_payment ⟨some p, b⟩ pid sig).state.billing =
        WalletServiceMongo.get_balance b + p.creditsToAdd) := by
  refine ⟨?_, ?_, ?_⟩
  · intro s pid sig
    unfold PaymentService.complete_payment
    rw [if_pos (by simp)]
  · intro s pid sig1 sig2
    rcases s with ⟨sp, b⟩
    rcases sp with _ | p
    · exact ⟨rfl, rfl⟩
    · unfold PaymentServiceMongo.complete_payment
      simp only []
      by_cases hcomp : p.status = PayStatus.completed
      · rw [if_pos hcomp, if_pos hcomp]
        exact ⟨rfl, rfl⟩
      · rw [if_neg hcomp, if_neg hcomp]
        by_cases hfail : p.status = PayStatus.failed
        · rw [if_pos hfail, if_pos hfail]
          exact ⟨rfl, rfl⟩
        · rw [if_neg hfail, if_neg hfail]
          by_cases hpend : p.status = PayStatus.pending
          · rw [if_pos hpend, if_pos hpend]
            rcases hadd : WalletServiceMongo.add_credits b p.creditsToAdd "payment"
              with ⟨b2, ok, nb⟩
            cases ok
            · exact ⟨rfl, rfl⟩
            · exact ⟨rfl, rfl⟩
          · rw [if_neg hpend, if_neg hpend]
            exact ⟨rfl, rfl⟩
  · intro p b pid sig hp hc
    have hncomp : ¬ p.status = PayStatus.completed := by
      rw [hp]
      exact fun h => PayStatus.noConfusion h
    have hnfail : ¬ p.status = PayStatus.failed := by
      rw [hp]
      exact fun h => PayStatus.noConfusion h
    unfold PaymentServiceMongo.complete_payment
    simp only []
    rw [if_neg hncomp, if_neg hnfail, if_pos hp,
      mongo_add_credits_pos b p.creditsToAdd "payment" hc, if_pos rfl]
    exact ⟨rfl, rfl⟩

theorem claim_C4_witness :
    (PaymentService.complete_payment false
        ⟨some ⟨none, none, 5, .pending, none⟩, some ⟨some ⟨0, 0⟩, false⟩⟩
        "pay_1" "whatever" =
      ⟨⟨some ⟨none, none, 5, .pending, none⟩, some ⟨some ⟨0, 0⟩, false⟩⟩,
        false, .invalidSignature⟩) ∧
    (PaymentServiceMongo.complete_payment
        ⟨some ⟨none, none, 5, .pending, false⟩, ⟨some ⟨0, 0, false⟩, 0, 100⟩⟩
        "pay_1" "bogus-signature").success = true :=
  ⟨claim_C4.1 ⟨some ⟨none, none, 5, .pending, none⟩, some ⟨some ⟨0, 0⟩, false⟩⟩
      "pay_1" "whatever",
   (claim_C4.2.2 ⟨none, none, 5, .pending, false⟩ ⟨some ⟨0, 0, false⟩, 0, 100⟩
      "pay_1" "bogus-signature" rfl (by norm_num)).1⟩

/-- Claim C5 counterexample: in the SQL backend, when the wallet credit
fails (here `credits_added = 0`, which `add_credits` rejects) the payment is
marked `failed` with an error message — not rolled back to `pending` as
claimed.  The call does return failure and the wallet is untouched. -/
theorem claim_C5_counterexample :
    PaymentService.complete_payment true
        ⟨some ⟨none, none, 0, .pending, none⟩, some ⟨some ⟨7, 0⟩, false⟩⟩
        "pay_9" "sig_9" =
      ⟨⟨some ⟨some "pay_9", some "sig_9", 0, .failed, some "Failed to add credits"⟩,
         some ⟨some ⟨7, 0⟩, false⟩⟩, false, .failedToAddCredits⟩ :=
  sql_complete_credit_fail ⟨none, none, 0, .pending, none⟩ ⟨some ⟨7, 0⟩, false⟩
    "pay_9" "sig_9" (fun h => PayStatus.noConfusion h) (by norm_num)

/-- Claim C5 (amended): when the wallet credit fails after the payment was
transitioned to `completed`, both backends return failure, but only the
Mongo backend rolls the status back to `pending` (clearing `completedAt`);
the SQL backend marks the payment `failed` with an error message.  In both
backends the transactional pairing holds: a payment that was not `completed`
before the call and is `completed` after it implies the call succeeded and
the wallet balance increased by exactly `credits_to_add`. -/
theorem claim_C5 :
    (∀ (p : MongoPaymentDoc) (b : MongoBilling) (pid sig : String),
      p.status = .pending → p.creditsToAdd ≤ 0 →
      PaymentServiceMongo.complete_payment ⟨some p, b⟩ pid sig =
        ⟨⟨some ⟨some pid, some sig, p.creditsToAdd, .pending, false⟩, b⟩,
          false, .failedToAddCredits⟩) ∧
    (∀ (p : PaymentRow) (user : UserRow) (pid sig : String),
      p.status = .pending → p.credits_added ≤ 0 →
      PaymentService.complete_payment true ⟨some p, some user⟩ pid sig =
        ⟨⟨some ⟨some pid, some sig, p.credits_added, .failed,
            some "Failed to add credits"⟩, some user⟩,
          false, .failedToAddCredits⟩) ∧
    (∀ (v : Bool) (s : SqlPayState) (pid sig : String) (p0 p1 : PaymentRow),
      s.payment = some p0 → ¬ p0.status = .completed →
      (PaymentService.complete_payment v s pid sig).state.payment = some p1 →
      p1.status = .completed →
      (PaymentService.complete_payment v s pid sig).success = true ∧
      WalletService.get_balance (PaymentService.complete_payment v s pid sig).state.user =
        WalletService.get_balance s.user + p0.credits_added) ∧
    (∀ (s : MongoPayState) (pid sig : String) (p0 p1 : MongoPaymentDoc),
      s.payment = some p0 → ¬ p0.status = .completed →
      (PaymentServiceMongo.complete_payment s pid sig).state.payment = some p1 →
      p1.status = .completed →
      (PaymentServiceMongo.complete_payment s pid sig).success = true ∧
      WalletServiceMongo.get_balance
          (PaymentServiceMongo.complete_payment s pid sig).state.billing =
        WalletServiceMongo.get_balance s.billing + p0.creditsToAdd) := by
  refine ⟨?_, ?_, ?_, ?_⟩
  · intro p b pid sig hp hc
    have hncomp : ¬ p.status = PayStatus.completed := by
      rw [hp]
      exact fun h => PayStatus.noConfusion h
    have hnfail : ¬ p.status = PayStatus.failed := by
      rw [hp]
      exact fun h => PayStatus.noConfusion h
    unfold PaymentServiceMongo.complete_payment
    simp only []
    rw [if_neg hncomp, if_neg hnfail, if_pos hp, mongo_add_credits_nonpos b _ _ hc]
  · intro p user pid sig hp hc
    have hncomp : ¬ p.status = PayStatus.completed := by
      rw [hp]
      exact fun h => PayStatus.noConfusion h
    unfold PaymentService.complete_payment
    rw [if_neg (by simp)]
    simp only []
    rw [if_neg hncomp, sql_add_credits_nonpos _ _ hc]
  · intro v s pid sig p0 p1 hsp hst hp1 hp1c
    rcases s with ⟨sp, su⟩
    have hsp2 : sp = some p0 := hsp
    subst hsp2
    cases v
    · unfold PaymentService.complete_payment at hp1 ⊢
      rw [if_pos (by simp)] at hp1 ⊢
      simp only [] at hp1
      rw [Option.some.injEq] at hp1
      subst hp1
      exact absurd hp1c hst
    · unfold PaymentService.complete_payment at hp1 ⊢
      rw [if_neg (by simp)] at hp1 ⊢
      simp only [] at hp1 ⊢
      rw [if_neg hst] at hp1 ⊢
      rcases su with _ | user
      · simp only [] at hp1
        rw [Option.some.injEq] at hp1
        subst hp1
        exact absurd hp1c (fun h => PayStatus.noConfusion h)
      · simp only [] at hp1 ⊢
        by_cases hpos : 0 < p0.credits_added
        · rw [sql_add_credits_pos _ _ hpos] at hp1 ⊢
          exact ⟨rfl, rfl⟩
        · rw [sql_add_credits_nonpos _ _ (not_lt.mp hpos)] at hp1
          simp only [] at hp1
          rw [Option.some.injEq] at hp1
          subst hp1
          exact absurd hp1c (fun h => PayStatus.noConfusion h)
  · intro s pid sig p0 p1 hsp hst hp1 hp1c
    rcases s with ⟨sp, b⟩
    have hsp2 : sp = some p0 := hsp
    subst hsp2
    unfold PaymentServiceMongo.complete_payment at hp1 ⊢
    simp only [] at hp1 ⊢
    rw [if_neg hst] at hp1 ⊢
    by_cases hfail : p0.status = PayStatus.failed
    · rw [if_pos hfail] at hp1
      simp only [] at hp1
      rw [Option.some.injEq] at hp1
      subst hp1
      exact absurd hp1c hst
    · rw [if_neg hfail] at hp1 ⊢
      by_cases hpend : p0.status = PayStatus.pending
      · rw [if_pos hpend] at hp1 ⊢
        by_cases hpos : 0 < p0.creditsToAdd
        · rw [mongo_add_credits_pos b _ "payment" hpos, if_pos rfl] at hp1 ⊢
          exact ⟨rfl, rfl⟩
        · rw [mongo_add_credits_nonpos b _ _ (not_lt.mp hpos)] at hp1
          simp only [] at hp1
          rw [Option.some.injEq] at hp1
          subst hp1
          exact absurd hp1c (fun h => PayStatus.noConfusion h)
      · rw [if_neg hpend] at hp1
        simp only [] at hp1
        rw [Option.some.injEq] at hp1
        subst hp1
        exact absurd hp1c hst

theorem claim_C5_witness :
    PaymentServiceMongo.complete_payment
        ⟨some ⟨none, none, 0, .pending, true⟩, ⟨some ⟨7, 0, false⟩, 0, 100⟩⟩
        "pay_9" "sig_9" =
      ⟨⟨some ⟨some "pay_9", some "sig_9", 0, .pending, false⟩,
         ⟨some ⟨7, 0, false⟩, 0, 100⟩⟩, false, .failedToAddCredits⟩ := by
  have h := claim_C5.1 ⟨none, none, 0, .pending, true⟩ ⟨some ⟨7, 0, false⟩, 0, 100⟩
    "pay_9" "sig_9" rfl (by norm_num)
  exact h

/-- Claim C6 counterexample: the admin grant endpoint of the SQL backend
(`billing_admin_add_credits`, a credit whose source is an admin grant, not a
payment) forwards to `WalletService.add_credits`, which increments
`total_credits_purchased` by the amount: starting from (0, 0), granting 5
leaves `total_credits_purchased = 5`, refuting "incremented if and only if
the credit's source is payment". -/
theorem claim_C6_counterexample :
    billing_admin_add_credits (some ⟨some ⟨0, 0⟩, false⟩) 5 =
      (some ⟨some ⟨5, 5⟩, false⟩, true, 5) := by
  unfold billing_admin_add_credits WalletService.add_credits
    WalletService.get_or_create_user
  norm_num

/-- Claim C6 (amended): the Mongo backend behaves as claimed — a successful
credit increments `totalCreditsPurchased` by the amount exactly when
`source == "payment"` and leaves it unchanged otherwise — but the SQL
backend's `add_credits` has no source parameter and increments
`total_credits_purchased` on **every** successful credit (admin grants and
free signup credits included).  In both backends the accumulator is
monotonically non-decreasing across credit operations. -/
theorem claim_C6 :
    (∀ (u : MongoUserDoc) (du dc amount : ℚ) (src : String), 0 < amount →
      WalletServiceMongo.add_credits ⟨some u, du, dc⟩ amount src =
        (⟨some ⟨u.creditsRemaining + amount,
            u.totalCreditsPurchased + (if src = "payment" then amount else 0),
            u.isSuspended⟩, du, dc⟩, true, u.creditsRemaining + amount)) ∧
    (∀ (s : MongoBilling) (amount : ℚ) (src : String), amount ≤ 0 →
      WalletServiceMongo.add_credits s amount src = (s, false, 0)) ∧
    (∀ (s : MongoBilling) (amount : ℚ) (src : String),
      mongoPurchased s ≤ mongoPurchased (WalletServiceMongo.add_credits s amount src).1) ∧
    (∀ (w : WalletRow) (b : Bool) (amount : ℚ), 0 < amount →
      WalletService.add_credits (some ⟨some w, b⟩) amount =
        (some ⟨some ⟨w.credits_remaining + amount,
            w.total_credits_purchased + amount⟩, b⟩,
          true, w.credits_remaining + amount)) ∧
    (∀ (u : Option UserRow) (amount : ℚ), amount ≤ 0 →
      WalletService.add_credits u amount = (u, false, 0)) ∧
    (∀ (u : Option UserRow) (amount : ℚ),
      sqlPurchased u ≤ sqlPurchased (WalletService.add_credits u amount).1) := by
  refine ⟨?_, ?_, ?_, ?_, ?_, ?_⟩
  · intro u du dc amount src ha
    unfold WalletServiceMongo.add_credits WalletServiceMongo.get_or_create_user
    rw [if_neg (not_le.mpr ha)]
  · intro s amount src ha
    unfold WalletServiceMongo.add_credits
    rw [if_pos ha]
  · intro s amount src
    unfold WalletServiceMongo.add_credits WalletServiceMongo.get_or_create_user
      mongoPurchased
    by_cases ha : amount ≤ 0
    · rw [if_pos ha]
    · rw [if_neg ha]
      rcases s with ⟨su, du, dc⟩
      rcases su with _ | u
      · simp only []
        split_ifs <;> simp <;> linarith
      · simp only []
        split_ifs <;> simp <;> linarith
  · intro w b amount ha
    unfold WalletService.add_credits WalletService.get_or_create_user
    rw [if_neg (not_le.mpr ha)]
    rfl
  · intro u amount ha
    unfold WalletService.add_credits
    rw [if_pos ha]
  · intro u amount
    unfold WalletService.add_credits WalletService.get_or_create_user sqlPurchased
    by_cases ha : amount ≤ 0
    · rw [if_pos ha]
    · rw [if_neg ha]
      rcases u with _ | user
      · simp
        linarith
      · rcases user with ⟨w, b⟩
        rcases w with _ | w
        · simp
          linarith
        · simp
          linarith

theorem claim_C6_witness :
    WalletServiceMongo.add_credits ⟨some ⟨1, 2, false⟩, 0, 100⟩ 5 "admin" =
      (⟨some ⟨6, 2, false⟩, 0, 100⟩, true, 6) ∧
    WalletService.add_credits (some ⟨some ⟨1, 2⟩, false⟩) 5 =
      (some ⟨some ⟨6, 7⟩, false⟩, true, 6) := by
  constructor
  · have h := claim_C6.1 ⟨1, 2, false⟩ 0 100 5 "admin" (by norm_num)
    rw [if_neg (by decide : ¬ ("admin" : String) = "payment")] at h
    norm_num at h
    exact h
  · have h := claim_C6.2.2.2.1 ⟨1, 2⟩ false 5 (by norm_num)
    norm_num at h
    exact h

/-- Claim C7 counterexample: with rate 32 and a 1-token usage, the Mongo
backend stores the raw quotient `1/32 = 0.03125`, while the §4.1 conversion
(`tokens_to_credits`) yields `0.0313` — the stored value is a
differently-rounded (unrounded) quotient, refuting the claim for the Mongo
backend. -/
theorem claim_C7_counterexample :
    (UsageServiceMongo.log_usage 1 0 32).credits_used = 1 / 32 ∧
    tokens_to_credits (1 + 0) 32 = 313 / 10000 ∧
    (UsageServiceMongo.log_usage 1 0 32).credits_used ≠ tokens_to_credits (1 + 0) 32 := by
  have hc : tokens_to_credits (1 + 0) 32 = 313 / 10000 := by
    rw [tokens_to_credits_pos_eq (1 + 0) 32 (by decide)]
    unfold ceil4
    have hval : (((1 + 0 : ℤ) : ℚ) / ((32 : ℤ) : ℚ)) * 10000 = 625 / 2 := by
      norm_num
    rw [hval]
    have hcl : ⌈(625 / 2 : ℚ)⌉ = (313 : ℤ) := by
      rw [Int.ceil_eq_iff]
      constructor
      · norm_num
      · norm_num
    rw [hcl]
    norm_num
  refine ⟨by norm_num [UsageServiceMongo.log_usage], hc, ?_⟩
  rw [hc]
  norm_num [UsageServiceMongo.log_usage]

/-- Claim C7 (amended): for a positive total `i + o` and positive rate, the
SQL backend's usage record stores `total_tokens = i + o` and
`credits_used = tokens_to_credits(i + o)` — exactly the §4.1 conversion, as
claimed; the Mongo backend stores the raw quotient `(i + o)/rate` instead,
which never exceeds (and in general is below) the §4.1 value. -/
theorem claim_C7 (i o tpc : ℤ) (hio : 0 < i + o) (htpc : 0 < tpc) :
    (UsageService.log_usage i o tpc).total_tokens = i + o ∧
    (UsageService.log_usage i o tpc).credits_used = tokens_to_credits (i + o) tpc ∧
    (UsageServiceMongo.log_usage i o tpc).total_tokens = i + o ∧
    (UsageServiceMongo.log_usage i o tpc).credits_used =
      ((i + o : ℤ) : ℚ) / (tpc : ℚ) ∧
    (UsageServiceMongo.log_usage i o tpc).credits_used ≤
      (UsageService.log_usage i o tpc).credits_used := by
  refine ⟨rfl, rfl, rfl, rfl, ?_⟩
  unfold UsageServiceMongo.log_usage UsageService.log_usage
  simp only []
  rw [tokens_to_credits_pos_eq _ _ hio]
  exact ceil4_ge _

theorem claim_C7_witness :
    (0 : ℤ) < 1 + 0 ∧ (0 : ℤ) < 32 ∧
    (UsageService.log_usage 1 0 32).credits_used = tokens_to_credits (1 + 0) 32 ∧
    (UsageServiceMongo.log_usage 1 0 32).credits_used ≤
      (UsageService.log_usage 1 0 32).credits_used :=
  ⟨by decide, by decide, (claim_C7 1 0 32 (by decide) (by decide)).2.1,
    (claim_C7 1 0 32 (by decide) (by decide)).2.2.2.2⟩

/-- Claim C8 counterexample: neither debit implementation consults the
suspension flag — a suspended wallet with balance 10 is successfully debited
5 in both backends, refuting "the debit operation returns failure" for
suspended wallets. -/
theorem claim_C8_counterexample :
    WalletService.deduct_credits (some ⟨some ⟨10, 0⟩, true⟩) 5 =
      ⟨some ⟨some ⟨5, 0⟩, true⟩, true, .ok⟩ ∧
    WalletServiceMongo.deduct_credits ⟨some ⟨10, 0, true⟩, 0, 100⟩ 5 =
      ⟨⟨some ⟨5, 0, true⟩, 0, 100⟩, true, .newBalance 5⟩ := by
  constructor
  · unfold WalletService.deduct_credits WalletService.get_or_create_user
    norm_num
  · unfold WalletServiceMongo.deduct_credits WalletServiceMongo.has_sufficient_credits
    norm_num

/-- Claim C8 (amended): the suspension flag has no effect on debits — the
success flag and resulting balance of `deduct_credits` are identical for any
two values of the flag in both backends (so suspended wallets are debited
exactly like active ones, instead of rejecting all debits as claimed) —
while read operations do succeed on suspended wallets: `get_balance` returns
the stored balance and `get_wallet_info` returns the wallet data. -/
theorem claim_C8 :
    (∀ (w : Option WalletRow) (b1 b2 : Bool) (a : ℚ),
      (WalletService.deduct_credits (some ⟨w, b1⟩) a).success =
        (WalletService.deduct_credits (some ⟨w, b2⟩) a).success ∧
      WalletService.get_balance (WalletService.deduct_credits (some ⟨w, b1⟩) a).user =
        WalletService.get_balance (WalletService.deduct_credits (some ⟨w, b2⟩) a).user) ∧
    (∀ (cr tp du dc a : ℚ) (b1 b2 : Bool),
      (WalletServiceMongo.deduct_credits ⟨some ⟨cr, tp, b1⟩, du, dc⟩ a).success =
        (WalletServiceMongo.deduct_credits ⟨some ⟨cr, tp, b2⟩, du, dc⟩ a).success ∧
      WalletServiceMongo.get_balance
          (WalletServiceMongo.deduct_credits ⟨some ⟨cr, tp, b1⟩, du, dc⟩ a).state =
        WalletServiceMongo.get_balance
          (WalletServiceMongo.deduct_credits ⟨some ⟨cr, tp, b2⟩, du, dc⟩ a).state) ∧
    (∀ (w : WalletRow),
      WalletService.get_balance (some ⟨some w, true⟩) = w.credits_remaining ∧
      WalletService.get_wallet_info (some ⟨some w, true⟩) =
        some (w.credits_remaining, w.total_credits_purchased)) ∧
    (∀ (u : MongoUserDoc) (du dc : ℚ),
      WalletServiceMongo.get_balance ⟨some u, du, dc⟩ = u.creditsRemaining ∧
      WalletServiceMongo.get_wallet_info ⟨some u, du, dc⟩ =
        some (u.creditsRemaining, u.totalCreditsPurchased)) := by
  refine ⟨?_, ?_, ?_, ?_⟩
  · intro w b1 b2 a
    unfold WalletService.deduct_credits WalletService.get_or_create_user
      WalletService.get_balance
    by_cases ha : a ≤ 0
    · rw [if_pos ha, if_pos ha]
      exact ⟨rfl, rfl⟩
    · rw [if_neg ha, if_neg ha]
      rcases w with _ | w
      · exact ⟨rfl, rfl⟩
      · simp only []
        by_cases hle : a ≤ w.credits_remaining
        · rw [if_pos hle, if_pos hle]
          exact ⟨rfl, rfl⟩
        · rw [if_neg hle, if_neg hle]
          exact ⟨rfl, rfl⟩
  · intro cr tp du dc a b1 b2
    unfold WalletServiceMongo.deduct_credits WalletServiceMongo.has_sufficient_credits
      WalletServiceMongo.get_balance
    by_cases ha : a ≤ 0
    · rw [if_pos ha, if_pos ha]
      exact ⟨rfl, rfl⟩
    · rw [if_neg ha, if_neg ha]
      simp only []
      by_cases hb : cr < a
      · rw [if_pos hb]
        exact ⟨rfl, rfl⟩
      · rw [if_neg hb]
        by_cases hcap : dc < du + a
        · rw [if_pos hcap]
          exact ⟨rfl, rfl⟩
        · rw [if_neg hcap]
          simp only []
          rw [if_pos (not_lt.mp hb), if_pos (not_lt.mp hb)]
          exact ⟨rfl, rfl⟩
  · intro w
    exact ⟨rfl, rfl⟩
  · intro u du dc
    exact ⟨rfl, rfl⟩

theorem claim_C8_witness :
    (WalletService.deduct_credits (some ⟨some ⟨10, 0⟩, true⟩) 5).success =
      (WalletService.deduct_credits (some ⟨some ⟨10, 0⟩, false⟩) 5).success ∧
    WalletService.get_balance (some ⟨some ⟨10, 0⟩, true⟩) = 10 :=
  ⟨(claim_C8.1 (some ⟨10, 0⟩) true false 5).1, (claim_C8.2.2.1 ⟨10, 0⟩).1⟩

/-- Claim C9 counterexample: with rate 1000, converting `0.0005` credits to
tokens truncates `int(0.5)` to `0` tokens, and converting `0` tokens back
yields `0.0000` credits, strictly below the starting amount — the round-trip
under-charges, refuting `tokensToCredits(creditsToTokens(c)) ≥ c` for all
non-negative `c`. -/
theorem claim_C9_counterexample :
    tokens_to_credits (credits_to_tokens (1 / 2000) 1000) 1000 < 1 / 2000 := by
  have h1 : credits_to_tokens (1 / 2000) 1000 = 0 := by
    unfold credits_to_tokens truncQ
    norm_num
  rw [h1]
  unfold tokens_to_credits
  norm_num

/-- Claim C9 (amended): the round-trip loses at most one token of value:
`tokensToCredits(creditsToTokens(c)) > c - 1/rate` for every non-negative
`c`; and whenever `c * rate` is an integer (in particular for whole-credit
amounts), the round-trip never under-charges: it is `≥ c`.  The original
claim fails for fractional amounts below the rate's resolution because
`credits_to_tokens` truncates. -/
theorem claim_C9 (c : ℚ) (tpc : ℤ) (hc : 0 ≤ c) (htpc : 0 < tpc) :
    c - 1 / (tpc : ℚ) < tokens_to_credits (credits_to_tokens c tpc) tpc ∧
    ((∃ n : ℤ, c * (tpc : ℚ) = (n : ℚ)) →
      c ≤ tokens_to_credits (credits_to_tokens c tpc) tpc) := by
  have htpcQ : (0 : ℚ) < (tpc : ℚ) := by exact_mod_cast htpc
  have hmul : 0 ≤ c * (tpc : ℚ) := mul_nonneg hc htpcQ.le
  have htr : credits_to_tokens c tpc = ⌊c * (tpc : ℚ)⌋ := by
    unfold credits_to_tokens truncQ
    rw [if_neg (not_lt.mpr hmul)]
  constructor
  · by_cases hT : ⌊c * (tpc : ℚ)⌋ ≤ 0
    · have hz : tokens_to_credits (credits_to_tokens c tpc) tpc = 0 := by
        rw [htr]
        unfold tokens_to_credits
        rw [if_pos hT]
      rw [hz]
      have hfl : (⌊c * (tpc : ℚ)⌋ : ℚ) ≤ 0 := by exact_mod_cast hT
      have h3 : c * (tpc : ℚ) < 1 := by
        have := Int.lt_floor_add_one (c * (tpc : ℚ))
        linarith
      have h4 : c < 1 / (tpc : ℚ) := by
        rw [lt_div_iff₀ htpcQ]
        linarith
      linarith
    · push_neg at hT
      rw [htr, tokens_to_credits_pos_eq _ _ hT]
      have h4 : c * (tpc : ℚ) - 1 < (⌊c * (tpc : ℚ)⌋ : ℚ) := by
        have := Int.lt_floor_add_one (c * (tpc : ℚ))
        linarith
      have h5 : c - 1 / (tpc : ℚ) < (⌊c * (tpc : ℚ)⌋ : ℚ) / (tpc : ℚ) := by
        rw [lt_div_iff₀ htpcQ]
        have hexp : (c - 1 / (tpc : ℚ)) * (tpc : ℚ) = c * (tpc : ℚ) - 1 := by
          field_simp
        rw [hexp]
        exact h4
      exact lt_of_lt_of_le h5 (ceil4_ge _)
  · rintro ⟨n, hn⟩
    have hfl : ⌊c * (tpc : ℚ)⌋ = n := by
      rw [hn]
      exact Int.floor_intCast n
    by_cases hn0 : n ≤ 0
    · have hle : c * (tpc : ℚ) ≤ 0 := by
        rw [hn]
        exact_mod_cast hn0
      have hc0 : c * (tpc : ℚ) = 0 := le_antisymm hle hmul
      have hcz : c = 0 := by
        rcases mul_eq_zero.mp hc0 with h | h
        · exact h
        · exact absurd h (ne_of_gt htpcQ)
      subst hcz
      have hct : credits_to_tokens 0 tpc = 0 := by
        simp [credits_to_tokens, truncQ]
      rw [hct]
      simp [tokens_to_credits]
    · push_neg at hn0
      rw [htr, hfl, tokens_to_credits_pos_eq n tpc hn0]
      have hcn : (n : ℚ) / (tpc : ℚ) = c := by
        rw [← hn, mul_div_assoc, div_self (ne_of_gt htpcQ), mul_one]
      rw [← hcn]
      exact ceil4_ge _

theorem claim_C9_witness :
    (0 : ℚ) ≤ 2 ∧ (0 : ℤ) < 1000 ∧
    2 - 1 / ((1000 : ℤ) : ℚ) < tokens_to_credits (credits_to_tokens 2 1000) 1000 ∧
    (2 : ℚ) ≤ tokens_to_credits (credits_to_tokens 2 1000) 1000 :=
  ⟨by norm_num, by decide, (claim_C9 2 1000 (by norm_num) (by decide)).1,
    (claim_C9 2 1000 (by norm_num) (by decide)).2 ⟨2000, by norm_num⟩⟩

/-- Claim C10: once a controller is aborted, `check_limits` — and therefore
every `record_*` method, which ends by calling it — raises
`ExecutionAborted` carrying the original abort reason, before evaluating any
other limit; the counters still accumulate but the `aborted` flag and
`abort_reason` are left intact by every such call, and only `start()` resets
the flag, the reason, and all counters. -/
theorem claim_C10 :
    (∀ (c : AgentController) (now : ℚ) (extra : ℤ), c.aborted = true →
      AgentController.check_limits c now extra = ⟨c, some c.abort_reason⟩) ∧
    (∀ (c : AgentController) (now : ℚ) (tokens : ℤ), c.aborted = true →
      AgentController.record_tokens c now tokens =
        ⟨{ c with tokens_used := c.tokens_used + tokens }, some c.abort_reason⟩) ∧
    (∀ (c : AgentController) (now : ℚ), c.aborted = true →
      AgentController.record_step c now =
        ⟨{ c with steps_taken := c.steps_taken + 1 }, some c.abort_reason⟩) ∧
    (∀ (c : AgentController) (now : ℚ) (tokens : ℤ), c.aborted = true →
      (AgentController.record_llm_call c now tokens).thrown = some c.abort_reason ∧
      (AgentController.record_llm_call c now tokens).ctrl.aborted = true ∧
      (AgentController.record_llm_call c now tokens).ctrl.abort_reason =
        c.abort_reason) ∧
    (∀ (c : AgentController) (now : ℚ),
      (AgentController.start c now).aborted = false ∧
      (AgentController.start c now).abort_reason = none ∧
      (AgentController.start c now).tokens_used = 0 ∧
      (AgentController.start c now).steps_taken = 0 ∧
      (AgentController.start c now).llm_calls = 0 ∧
      (AgentController.start c now).start_time = some now) := by
  refine ⟨?_, ?_, ?_, ?_, ?_⟩
  · intro c now extra h
    unfold AgentController.check_limits
    rw [if_pos h]
  · intro c now tokens h
    unfold AgentController.record_tokens AgentController.check_limits
    simp only []
    rw [if_pos h]
  · intro c now h
    unfold AgentController.record_step AgentController.check_limits
    simp only []
    rw [if_pos h]
  · intro c now tokens h
    unfold AgentController.record_llm_call AgentController.check_limits
    simp only []
    by_cases ht : 0 < tokens
    · rw [if_pos ht]
      simp only []
      rw [if_pos h]
      exact ⟨rfl, h, rfl⟩
    · rw [if_neg ht]
      simp only []
      rw [if_pos h]
      exact ⟨rfl, h, rfl⟩
  · intro c now
    exact ⟨rfl, rfl, rfl, rfl, rfl, rfl⟩

theorem claim_C10_witness :
    AgentController.check_limits
        ⟨4000, 5, 30, none, 1000, 4001, 0, 0, some 0, true, some .tokenLimit⟩ 1 0 =
      ⟨⟨4000, 5, 30, none, 1000, 4001, 0, 0, some 0, true, some .tokenLimit⟩,
        some (some .tokenLimit)⟩ ∧
    (AgentController.start
        ⟨4000, 5, 30, none, 1000, 4001, 0, 0, some 0, true, some .tokenLimit⟩ 2).aborted =
      false :=
  ⟨claim_C10.1 ⟨4000, 5, 30, none, 1000, 4001, 0, 0, some 0, true, some .tokenLimit⟩ 1 0 rfl,
   (claim_C10.2.2.2.2 ⟨4000, 5, 30, none, 1000, 4001, 0, 0, some 0, true, some .tokenLimit⟩ 2).1⟩
